import Mathlib

/-!
# Verification of the aiogram-generic admission pipeline middleware

Shallow embedding of the throttling / anti-spam / cooldown middleware of
`src/bot/middleware/throttling.py`, the error-handling middleware of
`src/bot/middleware/logging.py`, and the middleware registration order of
`src/bot/main.py`, together with proofs of the specification's claims.

Instants are modelled as integer second counts (`ℤ`); `datetime.now()`
becomes an explicit `now` argument, `timedelta(minutes=1)` becomes `60`,
and every comparison the code performs on times maps to the corresponding
order comparison on `ℤ`, so all strict/non-strict boundary behaviour is
preserved.  Python `defaultdict`s keyed by user id become total functions
`ℕ → _` with the default as initial value.
-/

set_option maxHeartbeats 1000000

namespace AiogramGeneric

/-- Pointwise update of a user-keyed map, mirroring `d[k] = v` on a dict. -/
def updFn {α : Type} (f : ℕ → α) (k : ℕ) (v : α) : ℕ → α :=
  fun x => if x = k then v else f x

/-! ## ThrottlingMiddleware (sliding-window rate limiter + warning escalator)

State of `ThrottlingMiddleware`: `user_timestamps` (defaultdict of lists of
instants) and `user_warnings` (defaultdict of ints).  `rate_limit` defaults
to `settings.rate_limit_per_minute = 30`. -/

structure ThrottleState where
  timestamps : ℕ → List ℤ
  warnings : ℕ → ℕ

/-- Initial state from `ThrottlingMiddleware.__init__`: empty defaultdicts. -/
def throttleInit : ThrottleState := ⟨fun _ => [], fun _ => 0⟩

/-- Default `rate_limit` from `settings.rate_limit_per_minute`. -/
def defaultRateLimit : ℕ := 30

/-- Warning tier of `_handle_rate_limit`'s message choice:
`warnings == 1` → soft "Slow down!", `warnings == 2` → hard
"Rate limit exceeded!", otherwise "blocked for {warnings} minutes". -/
inductive Tier where
  | soft : Tier
  | hard : Tier
  | blocked : ℕ → Tier
  deriving DecidableEq, Repr

/-- The message tier chosen by `_handle_rate_limit` from the (already
incremented) warning count. -/
def warningTier (warnings : ℕ) : Tier :=
  if warnings = 1 then .soft
  else if warnings = 2 then .hard
  else .blocked warnings

/-- Result of one `ThrottlingMiddleware.__call__` for an event with a user:
either the handler chain proceeds (`allowed`) or the event is rate limited
and a tiered warning is emitted (`denied tier`). -/
inductive RateResult where
  | allowed : RateResult
  | denied : Tier → RateResult
  deriving DecidableEq, Repr

def RateResult.isAllowed : RateResult → Bool
  | .allowed => true
  | .denied _ => false

/-- Embedding of `ThrottlingMiddleware._clean_old_timestamps`: keep only the timestamps
strictly newer than `now - 1 minute` (`ts > one_minute_ago`). -/
def cleanOldTimestamps (userId : ℕ) (now : ℤ) (tss : ℕ → List ℤ) : ℕ → List ℤ :=
  updFn tss userId ((tss userId).filter (fun ts => decide (now - 60 < ts)))

/-- Embedding of `ThrottlingMiddleware._handle_rate_limit`: increment the user's warning
counter and pick the tiered message; timestamps are untouched (the comment
"Implement actual blocking logic here if needed" marks that no block state
is stored). -/
def handleRateLimit (s : ThrottleState) (userId : ℕ) : ThrottleState × Tier :=
  let w := s.warnings userId + 1
  ({ s with warnings := updFn s.warnings userId w }, warningTier w)

/-- Embedding of `ThrottlingMiddleware.__call__` for an event with a user id:
clean old timestamps, deny when the pruned window has reached `rate_limit`,
otherwise append `now` and reset the warnings when the window is below half
the limit (`len < rate_limit / 2`, i.e. `2 * len < rate_limit`). -/
def throttlingCall (rateLimit : ℕ) (s : ThrottleState) (userId : ℕ) (now : ℤ) :
    ThrottleState × RateResult :=
  let s1 : ThrottleState := { s with timestamps := cleanOldTimestamps userId now s.timestamps }
  if rateLimit ≤ (s1.timestamps userId).length then
    let p := handleRateLimit s1 userId
    (p.1, .denied p.2)
  else
    let s2 : ThrottleState :=
      { s1 with timestamps := updFn s1.timestamps userId (s1.timestamps userId ++ [now]) }
    let s3 : ThrottleState :=
      if 2 * (s2.timestamps userId).length < rateLimit then
        { s2 with warnings := updFn s2.warnings userId 0 }
      else s2
    (s3, .allowed)

/-- Run the rate limiter over a sequence of `(userId, now)` events, recording
every decision.  The event times are produced by successive `datetime.now()`
calls, hence non-decreasing in every run of the program. -/
def throttleRun (rateLimit : ℕ) (s : ThrottleState) :
    List (ℕ × ℤ) → List (ℕ × ℤ × RateResult)
  | [] => []
  | (u, t) :: rest =>
    let p := throttlingCall rateLimit s u t
    (u, t, p.2) :: throttleRun rateLimit p.1 rest

/-! Per-user view of the limiter: the Python state is keyed by `user_id`
and each call touches only the calling user's entry, so a run projects to a
single-user run on `(timestamps, warnings)` pairs. -/

/-- One `ThrottlingMiddleware.__call__` seen from the calling user's slot:
same clean / deny / append / reset sequence on a `(timestamps, warnings)`
pair. -/
def singleStep (rateLimit : ℕ) (st : List ℤ × ℕ) (now : ℤ) :
    (List ℤ × ℕ) × Bool :=
  let pruned := st.1.filter (fun ts => decide (now - 60 < ts))
  if rateLimit ≤ pruned.length then
    ((pruned, st.2 + 1), false)
  else
    let appended := pruned ++ [now]
    (if 2 * appended.length < rateLimit then (appended, 0) else (appended, st.2), true)

/-- Single-user run: the times of one user's events with each decision. -/
def singleRun (rateLimit : ℕ) (st : List ℤ × ℕ) : List ℤ → List (ℤ × Bool)
  | [] => []
  | t :: rest =>
    let p := singleStep rateLimit st t
    (t, p.2) :: singleRun rateLimit p.1 rest

/-! ## Message text

Message texts are modelled as character lists so that the Python string
operations the middleware uses (`startswith`, `split`, `lower`, `strip`)
become structurally recursive functions. -/

abbrev Text := List Char

/-- Python `text.lower()` (ASCII case folding, which covers every command). -/
def lowerText (t : Text) : Text := t.map Char.toLower

def isWsChar (c : Char) : Bool := c.isWhitespace

/-- Python `text.strip()`: drop leading and trailing whitespace. -/
def trimText (t : Text) : Text :=
  ((t.dropWhile isWsChar).reverse.dropWhile isWsChar).reverse

/-- Python `text.split()[0]`: the first maximal run of non-whitespace characters. -/
def firstToken (t : Text) : Text :=
  (t.dropWhile isWsChar).takeWhile (fun c => !(isWsChar c))

/-- Python `text.startswith` applied to the command marker. -/
def startsWithSlash : Text → Bool
  | [] => false
  | c :: _ => c == '/'

/-! ## CommandThrottlingMiddleware (per-command cooldowns) -/

/-- Cooldown table from `CommandThrottlingMiddleware.__init__`:
`/start` → 5s, `/help` → 3s, `/stats` → 10s. -/
def commandCooldowns : List (Text × ℤ) :=
  [("/start".toList, 5), ("/help".toList, 3), ("/stats".toList, 10)]

/-- State of `CommandThrottlingMiddleware`: `user_last_command`, a
defaultdict from user id to a dict from command to last-used instant. -/
structure CooldownState where
  lastCommand : ℕ → Text → Option ℤ

def cooldownInit : CooldownState := ⟨fun _ _ => none⟩

/-- The dict write `self.user_last_command[user_id][command] = now`. -/
def updCmd (f : ℕ → Text → Option ℤ) (u : ℕ) (c : Text) (v : ℤ) :
    ℕ → Text → Option ℤ :=
  fun x => if x = u then (fun d => if d = c then some v else f x d) else f x

inductive CooldownResult where
  | allowed : CooldownResult
  | denied : ℤ → CooldownResult
  | bypass : CooldownResult
  deriving DecidableEq, Repr

/-- Embedding of `CommandThrottlingMiddleware.__call__` for an event with a user id and
message text: pass through unless the text is command-shaped
(`text.startswith('/')`) and its first token (lowercased) is in the cooldown
table; otherwise deny with the remaining time when the elapsed time since
the last use is below the cooldown (leaving the entry untouched), else record
`now` and pass through. -/
def commandThrottlingCall (s : CooldownState) (userId : ℕ) (text : Text) (now : ℤ) :
    CooldownState × CooldownResult :=
  if startsWithSlash text then
    let command := lowerText (firstToken text)
    match List.lookup command commandCooldowns with
    | none => (s, .bypass)
    | some cooldown =>
      let denyCheck : Option ℤ :=
        match s.lastCommand userId command with
        | some lastUsage =>
          if now - lastUsage < cooldown then some (cooldown - (now - lastUsage)) else none
        | none => none
      match denyCheck with
      | some remaining => (s, .denied remaining)
      | none =>
        ({ lastCommand := updCmd s.lastCommand userId command now }, .allowed)
  else (s, .bypass)

/-! ## AntiSpamMiddleware (repeated-content detector) -/

/-- State of `AntiSpamMiddleware`: `user_message_history`, a defaultdict of
`(normalized message, instant)` lists; `spam_threshold = 5`. -/
structure SpamState where
  history : ℕ → List (Text × ℤ)

def spamInit : SpamState := ⟨fun _ => []⟩

def spamThreshold : ℕ := 5

/-- Embedding of `AntiSpamMiddleware.__call__` for an event with a user id and message
text: normalize (`text.lower().strip()`), prune the user's history to
entries strictly newer than `now - 60`, deny (returning `true`) when the
normalized text already occurs at least `spam_threshold - 1` times in the
pruned history — without appending — and otherwise append `(msg, now)`. -/
def antiSpamCall (s : SpamState) (userId : ℕ) (text : Text) (now : ℤ) :
    SpamState × Bool :=
  let msg := trimText (lowerText text)
  let pruned := (s.history userId).filter (fun p => decide (now - 60 < p.2))
  let s1 : SpamState := ⟨updFn s.history userId pruned⟩
  let recent := pruned.map Prod.fst
  if spamThreshold - 1 ≤ recent.count msg then
    (s1, true)
  else
    (⟨updFn s1.history userId (pruned ++ [(msg, now)])⟩, false)

/-- Run the anti-spam check over a sequence of `(text, now)` messages of one
user, recording each decision (`true` = denied as spam). -/
def spamRun (s : SpamState) (userId : ℕ) :
    List (Text × ℤ) → SpamState × List Bool
  | [] => (s, [])
  | (m, t) :: rest =>
    let p := antiSpamCall s userId m t
    let q := spamRun p.1 userId rest
    (q.1, p.2 :: q.2)

/-! ## The registered middleware chain (`TelegramBot._setup_middleware`)

`main.py` registers, in order: `LoggingMiddleware`, `ErrorHandlingMiddleware`,
`AntiSpamMiddleware`, `ThrottlingMiddleware`, `CommandThrottlingMiddleware`,
`UserActivityMiddleware`; middleware run in registration order, so among the
gatekeepers the spam check runs first, then the rate check, then the command
cooldown check, and the first of them to return `None` stops the chain. -/

/-- The facets of an inbound `Update` the gatekeepers inspect: the resolved
`event_from_user` id (absent for user-less updates), the message text
(absent for callback queries and non-text messages), and the current time. -/
structure Event where
  userId : Option ℕ
  text : Option Text
  time : ℤ

inductive ChainOutcome where
  | admitted : ChainOutcome
  | deniedAtSpam : ChainOutcome
  | deniedAtRate : Tier → ChainOutcome
  | deniedAtCooldown : ℤ → ChainOutcome
  deriving DecidableEq, Repr

/-- Combined state of the three gatekeeper middleware instances. -/
structure PipelineState where
  spam : SpamState
  rate : ThrottleState
  cooldown : CooldownState

def pipelineInit : PipelineState := ⟨spamInit, throttleInit, cooldownInit⟩

/-- The `AntiSpamMiddleware` stage of the chain: applies only to text messages
from an identified user; `some` outcome means the stage short-circuits. -/
def spamStage (s : PipelineState) (e : Event) : PipelineState × Option ChainOutcome :=
  match e.text, e.userId with
  | some text, some uid =>
    let p := antiSpamCall s.spam uid text e.time
    ({ s with spam := p.1 }, if p.2 then some .deniedAtSpam else none)
  | _, _ => (s, none)

/-- The `ThrottlingMiddleware` stage of the chain: applies to every event with an
identified user. -/
def rateStage (rateLimit : ℕ) (s : PipelineState) (e : Event) :
    PipelineState × Option ChainOutcome :=
  match e.userId with
  | some uid =>
    let p := throttlingCall rateLimit s.rate uid e.time
    ({ s with rate := p.1 },
     match p.2 with
     | .allowed => none
     | .denied t => some (.deniedAtRate t))
  | none => (s, none)

/-- The `CommandThrottlingMiddleware` stage of the chain. -/
def cooldownStage (s : PipelineState) (e : Event) : PipelineState × Option ChainOutcome :=
  match e.text, e.userId with
  | some text, some uid =>
    let p := commandThrottlingCall s.cooldown uid text e.time
    ({ s with cooldown := p.1 },
     match p.2 with
     | .denied r => some (.deniedAtCooldown r)
     | _ => none)
  | _, _ => (s, none)

/-- The gatekeeper chain in the registration order of
`TelegramBot._setup_middleware`: anti-spam, then throttling, then command
throttling; the first stage to short-circuit ends processing, otherwise the
event is admitted to the handlers. -/
def chainCall (rateLimit : ℕ) (s : PipelineState) (e : Event) :
    PipelineState × ChainOutcome :=
  let p1 := spamStage s e
  match p1.2 with
  | some o => (p1.1, o)
  | none =>
    let p2 := rateStage rateLimit p1.1 e
    match p2.2 with
    | some o => (p2.1, o)
    | none =>
      let p3 := cooldownStage p2.1 e
      match p3.2 with
      | some o => (p3.1, o)
      | none => (p3.1, .admitted)

/-- Modelled from the spec (§4.5 GatekeeperChain): the stage order the spec
asserts — `RateCheck`, then `CooldownCheck`, then `SpamCheck`.  Defined only
to compare the asserted order against the registration order of `main.py`. -/
def chainSpecOrder (rateLimit : ℕ) (s : PipelineState) (e : Event) :
    PipelineState × ChainOutcome :=
  let p1 := rateStage rateLimit s e
  match p1.2 with
  | some o => (p1.1, o)
  | none =>
    let p2 := cooldownStage p1.1 e
    match p2.2 with
    | some o => (p2.1, o)
    | none =>
      let p3 := spamStage p2.1 e
      match p3.2 with
      | some o => (p3.1, o)
      | none => (p3.1, .admitted)

/-! ## ErrorHandlingMiddleware (`src/bot/middleware/logging.py`) -/

/-- Which user-visible reply channel the event offers: `event.message`,
`event.callback_query`, or neither. -/
inductive RespondVia where
  | message : RespondVia
  | callbackQuery : RespondVia
  | neither : RespondVia
  deriving DecidableEq, Repr

def genericErrorText : String :=
  "Sorry, something went wrong. Please try again later. If the problem persists, contact support."

def genericErrorAlert : String :=
  "Error processing your request. Please try again."

/-- Embedding of `ErrorHandlingMiddleware.__call__`: run the wrapped handler; on an
exception, log, send a generic user-visible failure message on the event's
reply channel, and then `raise` again — the middleware returns the pair of
the messages it sent and the final outcome handed to its own caller. -/
def errorHandlingCall {E A : Type} (target : RespondVia) (handlerResult : Except E A) :
    List String × Except E A :=
  match handlerResult with
  | .ok a => ([], .ok a)
  | .error err =>
    (match target with
     | .message => [genericErrorText]
     | .callbackQuery => [genericErrorAlert]
     | .neither => [],
     .error err)

/-- The event times belonging to one user, in arrival order. -/
def userEvents (U : ℕ) (events : List (ℕ × ℤ)) : List ℤ :=
  (events.filter (fun x => decide (x.1 = U))).map Prod.snd

/-- One user's `(time, admitted?)` decisions extracted from a full run. -/
def userDecisions (U : ℕ) (run : List (ℕ × ℤ × RateResult)) : List (ℤ × Bool) :=
  (run.filter (fun x => decide (x.1 = U))).map (fun x => (x.2.1, x.2.2.isAllowed))

/-- Membership of a single-user decision in the window `[a, a + 60)` as an
admitted event. -/
def inWindow (a : ℤ) (p : ℤ × Bool) : Bool :=
  p.2 && decide (a ≤ p.1) && decide (p.1 < a + 60)

/-! ## Helper lemmas -/

@[simp] theorem updFn_same {α : Type} (f : ℕ → α) (k : ℕ) (v : α) :
    updFn f k v k = v := by simp [updFn]

@[simp] theorem updFn_other {α : Type} (f : ℕ → α) (k : ℕ) (v : α) (x : ℕ)
    (h : x ≠ k) : updFn f k v x = f x := by simp [updFn, h]

@[simp] theorem updFn_updFn {α : Type} (f : ℕ → α) (k : ℕ) (v w : α) :
    updFn (updFn f k v) k w = updFn f k w := by
  funext x; by_cases h : x = k <;> simp [updFn, h]

/-- The rate limiter admits exactly when the pruned window is below the
ceiling, whatever the warning counter holds. -/
theorem throttle_allowed_iff (rateLimit : ℕ) (s : ThrottleState) (u : ℕ) (now : ℤ) :
    (throttlingCall rateLimit s u now).2 = .allowed ↔
      ((s.timestamps u).filter (fun ts => decide (now - 60 < ts))).length < rateLimit := by
  by_cases h : rateLimit ≤ ((s.timestamps u).filter (fun ts => decide (now - 60 < ts))).length
  · simp [throttlingCall, cleanOldTimestamps, h, Nat.not_lt.mpr h]
  · simp [throttlingCall, cleanOldTimestamps, h, Nat.lt_of_not_le h]

/-- On the deny path the limiter leaves the window at its pruned contents,
bumps the warning counter, and reports the tier of the new count. -/
theorem throttle_denied_eq (rateLimit : ℕ) (s : ThrottleState) (u : ℕ) (now : ℤ)
    (h : rateLimit ≤ ((s.timestamps u).filter (fun ts => decide (now - 60 < ts))).length) :
    (throttlingCall rateLimit s u now).1.timestamps u =
      (s.timestamps u).filter (fun ts => decide (now - 60 < ts)) ∧
    (throttlingCall rateLimit s u now).1.warnings u = s.warnings u + 1 ∧
    (throttlingCall rateLimit s u now).2 = .denied (warningTier (s.warnings u + 1)) := by
  simp [throttlingCall, cleanOldTimestamps, handleRateLimit, h]

/-! ## C8: a denied attempt is not counted -/

/-- C8.  When the sliding-window limiter denies (the pruned window has
reached the ceiling), no timestamp is appended: the user's window after the
call is exactly its pruned contents, so the rejected attempt never counts
toward future admissions; other users' windows are untouched. -/
theorem denied_window_unchanged (rateLimit : ℕ) (s : ThrottleState) (u : ℕ) (now : ℤ)
    (hden : rateLimit ≤ ((s.timestamps u).filter (fun ts => decide (now - 60 < ts))).length) :
    (throttlingCall rateLimit s u now).1.timestamps u =
      (s.timestamps u).filter (fun ts => decide (now - 60 < ts)) ∧
    (∃ tier, (throttlingCall rateLimit s u now).2 = .denied tier) ∧
    ∀ v, v ≠ u → (throttlingCall rateLimit s u now).1.timestamps v = s.timestamps v := by
  refine ⟨(throttle_denied_eq rateLimit s u now hden).1,
    ⟨_, (throttle_denied_eq rateLimit s u now hden).2.2⟩, ?_⟩
  intro v hv
  simp [throttlingCall, cleanOldTimestamps, handleRateLimit, hden, hv]

theorem denied_window_unchanged_witness :
    (2 ≤ (((⟨updFn (fun _ => []) 1 [3, 4], fun _ => 0⟩ : ThrottleState).timestamps 1).filter
        (fun ts => decide ((5:ℤ) - 60 < ts))).length) ∧
    (throttlingCall 2 ⟨updFn (fun _ => []) 1 [3, 4], fun _ => 0⟩ 1 5).1.timestamps 1 = [3, 4] := by
  refine ⟨by decide, ?_⟩
  have h := denied_window_unchanged 2 ⟨updFn (fun _ => []) 1 [3, 4], fun _ => 0⟩ 1 5 (by decide)
  rw [h.1]; decide

/-! ## C9: the pruning boundary -/

/-- C9 counterexample.  The claim says the pruning pass retains every instant
in the closed interval `[now - 60, now]`, in particular an instant exactly 60
seconds old.  The code keeps `ts > now - 60` strictly: with a window holding
the single instant `0` and `now = 60`, the instant exactly 60 seconds old is
dropped. -/
theorem prune_closed_interval_cex :
    ¬ ((0:ℤ) ∈ cleanOldTimestamps 1 60 (updFn (fun _ => []) 1 [0]) 1) := by
  decide

/-- C9 amended.  The pruning pass retains exactly the stored instants of the
half-open interval `(now - 60, now]` lower side: an instant survives iff it
is strictly newer than `now - 60` (so an instant exactly 60 seconds old is
dropped), hence nothing 60 or more seconds old remains; pruning preserves
the insertion order (it yields a sublist) and no other user's window is
touched. -/
theorem prune_halfopen_amended (u : ℕ) (now : ℤ) (tss : ℕ → List ℤ) :
    (∀ ts : ℤ, ts ∈ cleanOldTimestamps u now tss u ↔ (ts ∈ tss u ∧ now - 60 < ts)) ∧
    (∀ ts ∈ cleanOldTimestamps u now tss u, ¬ ts ≤ now - 60) ∧
    List.Sublist (cleanOldTimestamps u now tss u) (tss u) ∧
    (∀ v, v ≠ u → cleanOldTimestamps u now tss v = tss v) := by
  refine ⟨?_, ?_, ?_, ?_⟩
  · intro ts; simp [cleanOldTimestamps, List.mem_filter]
  · intro ts hts
    have h2 : now - 60 < ts := by
      have := hts
      simp [cleanOldTimestamps, List.mem_filter] at this
      exact this.2
    omega
  · simp only [cleanOldTimestamps, updFn_same]
    exact List.filter_sublist (tss u)
  · intro v hv; simp [cleanOldTimestamps, hv]

theorem prune_halfopen_amended_witness :
    ((61:ℤ) ∈ cleanOldTimestamps 1 61 (updFn (fun _ => []) 1 [0, 1, 2, 61]) 1 ↔
      ((61:ℤ) ∈ updFn (fun _ => []) 1 [(0:ℤ), 1, 2, 61] 1 ∧ (61:ℤ) - 60 < 61)) ∧
    cleanOldTimestamps 1 61 (updFn (fun _ => []) 1 [0, 1, 2, 61]) 2 =
      updFn (fun _ => []) 1 [(0:ℤ), 1, 2, 61] 2 := by
  exact ⟨(prune_halfopen_amended 1 61 (updFn (fun _ => []) 1 [0, 1, 2, 61])).1 61,
    (prune_halfopen_amended 1 61 (updFn (fun _ => []) 1 [0, 1, 2, 61])).2.2.2 2 (by decide)⟩

/-! ## C7: the good-behavior reset -/

/-- C7.  On every admission, the warning counter is reset to 0 exactly when
the window size observed at that admission — the pruned window including the
just-appended timestamp — is below half the ceiling (`len < rate_limit / 2`,
i.e. `2 * len < rate_limit`); otherwise it is left unchanged, and no other
user's counter is touched.  (State changes only on calls, so mere passage of
time never alters a counter.) -/
theorem goodBehavior_reset (rateLimit : ℕ) (s : ThrottleState) (u : ℕ) (now : ℤ)
    (hallow : ((s.timestamps u).filter (fun ts => decide (now - 60 < ts))).length < rateLimit) :
    (throttlingCall rateLimit s u now).2 = .allowed ∧
    (throttlingCall rateLimit s u now).1.warnings u =
      (if 2 * (((s.timestamps u).filter (fun ts => decide (now - 60 < ts))).length + 1) < rateLimit
        then 0 else s.warnings u) ∧
    (∀ v, v ≠ u → (throttlingCall rateLimit s u now).1.warnings v = s.warnings v) := by
  have hn := Nat.not_le.mpr hallow
  refine ⟨(throttle_allowed_iff rateLimit s u now).mpr hallow, ?_, ?_⟩
  · by_cases hr : 2 * (((s.timestamps u).filter (fun ts => decide (now - 60 < ts))).length + 1)
        < rateLimit
    · simp [throttlingCall, cleanOldTimestamps, hn, hr]
    · simp [throttlingCall, cleanOldTimestamps, hn, hr]
  · intro v hv
    by_cases hr : 2 * (((s.timestamps u).filter (fun ts => decide (now - 60 < ts))).length + 1)
        < rateLimit <;>
      simp [throttlingCall, cleanOldTimestamps, hn, hr, hv]

theorem goodBehavior_reset_witness :
    ((((⟨updFn (fun _ => []) 1 [2], fun _ => 3⟩ : ThrottleState).timestamps 1).filter
        (fun ts => decide ((61:ℤ) - 60 < ts))).length < 30) ∧
    (throttlingCall 30 ⟨updFn (fun _ => []) 1 [2], fun _ => 3⟩ 1 61).1.warnings 1 = 0 := by
  refine ⟨by decide, ?_⟩
  have h := goodBehavior_reset 30 ⟨updFn (fun _ => []) 1 [2], fun _ => 3⟩ 1 61 (by decide)
  rw [h.2.1]; decide

/-! ## C10: a "blocked" tier stores no block state -/

/-- C10.  A `blocked` tier response changes nothing but the warning counter:
the window stays at its pruned contents, and the user's very next event is
decided by the same sliding-window test — admitted iff the freshly pruned
window is below the ceiling — regardless of the announced block duration. -/
theorem blocked_tier_no_block_state (rateLimit : ℕ) (s : ThrottleState) (u : ℕ)
    (now now2 : ℤ) (n : ℕ)
    (hblock : (throttlingCall rateLimit s u now).2 = .denied (.blocked n)) :
    (throttlingCall rateLimit s u now).1.timestamps u =
      (s.timestamps u).filter (fun ts => decide (now - 60 < ts)) ∧
    ((throttlingCall rateLimit (throttlingCall rateLimit s u now).1 u now2).2 = .allowed ↔
      (((throttlingCall rateLimit s u now).1.timestamps u).filter
        (fun ts => decide (now2 - 60 < ts))).length < rateLimit) := by
  have hden : rateLimit ≤
      ((s.timestamps u).filter (fun ts => decide (now - 60 < ts))).length := by
    by_contra hc
    have := (throttle_allowed_iff rateLimit s u now).mpr (Nat.lt_of_not_le hc)
    rw [this] at hblock
    exact RateResult.noConfusion hblock
  exact ⟨(throttle_denied_eq rateLimit s u now hden).1,
    throttle_allowed_iff rateLimit (throttlingCall rateLimit s u now).1 u now2⟩

theorem blocked_tier_no_block_state_witness :
    (throttlingCall 1 ⟨updFn (fun _ => []) 1 [5], fun _ => 2⟩ 1 6).2 =
      .denied (.blocked 3) ∧
    (throttlingCall 1 (throttlingCall 1 ⟨updFn (fun _ => []) 1 [5], fun _ => 2⟩ 1 6).1
        1 100).2 = .allowed := by
  refine ⟨by decide, ?_⟩
  have h := blocked_tier_no_block_state 1 ⟨updFn (fun _ => []) 1 [5], fun _ => 2⟩ 1 6 100 3
    (by decide)
  exact h.2.mpr (by rw [h.1]; decide)

/-! ## C3: cooldown check-and-record -/

/-- C3.  For a tracked command with a prior entry, the cooldown check denies
exactly when the elapsed time is strictly below the cooldown; a denial
reports `remainingSeconds = cooldown - elapsed`, which is positive and at
most the cooldown, and leaves the state untouched (the cooldown clock stays
anchored to the last successful use); once the elapsed time reaches the
cooldown the call is allowed and the entry is overwritten with `now`. -/
theorem cooldown_checkAndRecord (s : CooldownState) (u : ℕ) (text : Text)
    (now lastUsed cooldown : ℤ)
    (hslash : startsWithSlash text = true)
    (hcmd : List.lookup (lowerText (firstToken text)) commandCooldowns = some cooldown)
    (hprior : s.lastCommand u (lowerText (firstToken text)) = some lastUsed)
    (hord : lastUsed ≤ now) :
    ((∃ rem, (commandThrottlingCall s u text now).2 = .denied rem) ↔
      now - lastUsed < cooldown) ∧
    (now - lastUsed < cooldown →
      (commandThrottlingCall s u text now).2 = .denied (cooldown - (now - lastUsed)) ∧
      0 < cooldown - (now - lastUsed) ∧
      cooldown - (now - lastUsed) ≤ cooldown ∧
      (commandThrottlingCall s u text now).1 = s) ∧
    (cooldown ≤ now - lastUsed →
      (commandThrottlingCall s u text now).2 = .allowed ∧
      (commandThrottlingCall s u text now).1.lastCommand u (lowerText (firstToken text)) =
        some now) := by
  by_cases hlt : now - lastUsed < cooldown
  · have hc : commandThrottlingCall s u text now = (s, .denied (cooldown - (now - lastUsed))) := by
      simp [commandThrottlingCall, hslash, hcmd, hprior, hlt]
    refine ⟨⟨fun _ => hlt, fun _ => ⟨_, by rw [hc]⟩⟩, fun _ => ?_, fun hge => absurd hlt ?_⟩
    · rw [hc]
      refine ⟨rfl, by omega, by omega, rfl⟩
    · omega
  · have hc : commandThrottlingCall s u text now =
        ({ lastCommand := updCmd s.lastCommand u (lowerText (firstToken text)) now },
          .allowed) := by
      simp [commandThrottlingCall, hslash, hcmd, hprior, hlt]
    refine ⟨⟨fun ⟨rem, hr⟩ => ?_, fun h => absurd h hlt⟩, fun h => absurd h hlt, fun _ => ?_⟩
    · rw [hc] at hr
      exact CooldownResult.noConfusion hr
    · rw [hc]
      exact ⟨rfl, by simp [updCmd]⟩

theorem cooldown_checkAndRecord_witness :
    (startsWithSlash "/start".toList = true ∧
      List.lookup (lowerText (firstToken "/start".toList)) commandCooldowns = some 5 ∧
      (cooldownInit.lastCommand 7 (lowerText (firstToken "/start".toList)) = some 5 → False) ∧
      ((updCmd cooldownInit.lastCommand 7 "/start".toList 0) 7
        (lowerText (firstToken "/start".toList)) = some 0)) ∧
    (commandThrottlingCall ⟨updCmd cooldownInit.lastCommand 7 "/start".toList 0⟩
        7 "/start".toList 3).2 = .denied 2 ∧
    (commandThrottlingCall ⟨updCmd cooldownInit.lastCommand 7 "/start".toList 0⟩
        7 "/start".toList 5).2 = .allowed := by
  refine ⟨⟨by decide, by decide, by decide, by decide⟩, ?_, ?_⟩
  · have h := cooldown_checkAndRecord ⟨updCmd cooldownInit.lastCommand 7 "/start".toList 0⟩
      7 "/start".toList 3 0 5 (by decide) (by decide) (by decide) (by decide)
    have h2 := (h.2.1 (by decide)).1
    simpa using h2
  · have h := cooldown_checkAndRecord ⟨updCmd cooldownInit.lastCommand 7 "/start".toList 0⟩
      7 "/start".toList 5 0 5 (by decide) (by decide) (by decide) (by decide)
    exact (h.2.2 (by decide)).1

/-! ## C5: warning escalation tiers -/

/-- C5.  Every rate-limit denial increments the user's violation counter by
exactly one and reports the tier of the new count — 1 → soft, 2 → hard,
n ≥ 3 → blocked for n minutes — and three consecutive denials starting from
a clean counter produce the tier sequence soft, hard, blocked 3. -/
theorem rate_violation_tiers (rateLimit : ℕ) :
    (∀ (s : ThrottleState) (u : ℕ) (now : ℤ),
      rateLimit ≤ ((s.timestamps u).filter (fun ts => decide (now - 60 < ts))).length →
      (throttlingCall rateLimit s u now).1.warnings u = s.warnings u + 1 ∧
      (throttlingCall rateLimit s u now).2 = .denied (warningTier (s.warnings u + 1))) ∧
    warningTier 1 = .soft ∧
    warningTier 2 = .hard ∧
    (∀ n, 3 ≤ n → warningTier n = .blocked n) ∧
    (∀ (s : ThrottleState) (u : ℕ) (t1 t2 t3 : ℤ),
      s.warnings u = 0 →
      (∀ r ∈ throttleRun rateLimit s [(u, t1), (u, t2), (u, t3)], r.2.2.isAllowed = false) →
      (throttleRun rateLimit s [(u, t1), (u, t2), (u, t3)]).map (fun r => r.2.2) =
        [.denied .soft, .denied .hard, .denied (.blocked 3)]) := by
  refine ⟨fun s u now h => ⟨(throttle_denied_eq rateLimit s u now h).2.1,
      (throttle_denied_eq rateLimit s u now h).2.2⟩,
    rfl, rfl, fun n hn => by
      have h1 : n ≠ 1 := by omega
      have h2 : n ≠ 2 := by omega
      simp [warningTier, h1, h2], ?_⟩
  intro s u t1 t2 t3 h0 hall
  have mem1 : (u, t1, (throttlingCall rateLimit s u t1).2) ∈
      throttleRun rateLimit s [(u, t1), (u, t2), (u, t3)] := by
    simp [throttleRun]
  have hc1 : rateLimit ≤
      ((s.timestamps u).filter (fun ts => decide (t1 - 60 < ts))).length := by
    by_contra hc
    have ha := (throttle_allowed_iff rateLimit s u t1).mpr (Nat.lt_of_not_le hc)
    have := hall _ mem1
    rw [ha] at this
    simp [RateResult.isAllowed] at this
  obtain ⟨hts1, hw1, hr1⟩ := throttle_denied_eq rateLimit s u t1 hc1
  set s1 := (throttlingCall rateLimit s u t1).1 with hs1
  have mem2 : (u, t2, (throttlingCall rateLimit s1 u t2).2) ∈
      throttleRun rateLimit s [(u, t1), (u, t2), (u, t3)] := by
    simp [throttleRun, hs1]
  have hc2 : rateLimit ≤
      ((s1.timestamps u).filter (fun ts => decide (t2 - 60 < ts))).length := by
    by_contra hc
    have ha := (throttle_allowed_iff rateLimit s1 u t2).mpr (Nat.lt_of_not_le hc)
    have := hall _ mem2
    rw [ha] at this
    simp [RateResult.isAllowed] at this
  obtain ⟨hts2, hw2, hr2⟩ := throttle_denied_eq rateLimit s1 u t2 hc2
  set s2 := (throttlingCall rateLimit s1 u t2).1 with hs2
  have mem3 : (u, t3, (throttlingCall rateLimit s2 u t3).2) ∈
      throttleRun rateLimit s [(u, t1), (u, t2), (u, t3)] := by
    simp [throttleRun, hs1, hs2]
  have hc3 : rateLimit ≤
      ((s2.timestamps u).filter (fun ts => decide (t3 - 60 < ts))).length := by
    by_contra hc
    have ha := (throttle_allowed_iff rateLimit s2 u t3).mpr (Nat.lt_of_not_le hc)
    have := hall _ mem3
    rw [ha] at this
    simp [RateResult.isAllowed] at this
  obtain ⟨hts3, hw3, hr3⟩ := throttle_denied_eq rateLimit s2 u t3 hc3
  have e1 : (throttlingCall rateLimit s u t1).2 = .denied .soft := by
    rw [hr1, h0]; rfl
  have e2 : (throttlingCall rateLimit s1 u t2).2 = .denied .hard := by
    rw [hr2, hw1, h0]; rfl
  have e3 : (throttlingCall rateLimit s2 u t3).2 = .denied (.blocked 3) := by
    rw [hr3, hw2, hw1, h0]; rfl
  simp [throttleRun, ← hs1, ← hs2, e1, e2, e3]

theorem rate_violation_tiers_witness :
    ((0 ≤ ((((⟨updFn (fun _ => []) 1 [10], fun _ => 0⟩ : ThrottleState).timestamps 1).filter
        (fun ts => decide ((10:ℤ) - 60 < ts))).length)) ∧
      ((⟨updFn (fun _ => []) 1 [10], fun _ => 0⟩ : ThrottleState).warnings 1 = 0) ∧
      (∀ r ∈ throttleRun 1 ⟨updFn (fun _ => []) 1 [10], fun _ => 0⟩
          [(1, 10), (1, 11), (1, 12)], r.2.2.isAllowed = false)) ∧
    (throttleRun 1 ⟨updFn (fun _ => []) 1 [10], fun _ => 0⟩
        [(1, 10), (1, 11), (1, 12)]).map (fun r => r.2.2) =
      [.denied .soft, .denied .hard, .denied (.blocked 3)] := by
  refine ⟨⟨by decide, by decide, by decide⟩, ?_⟩
  exact (rate_violation_tiers 1).2.2.2.2 ⟨updFn (fun _ => []) 1 [10], fun _ => 0⟩
    1 10 11 12 (by decide) (by decide)

/-! ## C6: handler errors at the chain boundary -/

/-- C6 counterexample.  The claim says a handler error is caught and not
propagated upward.  `ErrorHandlingMiddleware.__call__` sends the generic
failure message and then re-raises (`raise` after the except block), so the
error does reach the middleware's own caller. -/
theorem handler_error_cex :
    (errorHandlingCall RespondVia.message (Except.error "boom" : Except String Unit)).2 =
      Except.error "boom" ∧
    (errorHandlingCall RespondVia.message (Except.error "boom" : Except String Unit)).1 =
      [genericErrorText] := by
  exact ⟨rfl, rfl⟩

/-- C6 amended.  Any error raised by the downstream handler is caught by the
error-handling middleware, converted into a generic user-visible failure
response on the event's reply channel, and then re-raised, so it does
propagate upward to the enclosing middleware; successful results pass through
untouched with no message sent. -/
theorem handler_error_amended {E A : Type} (target : RespondVia) :
    (∀ e : E, (errorHandlingCall target (Except.error e : Except E A)).2 = Except.error e) ∧
    (∀ e : E, target = .message →
      (errorHandlingCall target (Except.error e : Except E A)).1 = [genericErrorText]) ∧
    (∀ e : E, target = .callbackQuery →
      (errorHandlingCall target (Except.error e : Except E A)).1 = [genericErrorAlert]) ∧
    (∀ a : A, errorHandlingCall target (Except.ok a : Except E A) = ([], Except.ok a)) := by
  refine ⟨fun e => ?_, fun e ht => ?_, fun e ht => ?_, fun a => rfl⟩
  · cases target <;> rfl
  · subst ht; rfl
  · subst ht; rfl

theorem handler_error_amended_witness :
    (errorHandlingCall RespondVia.callbackQuery
        (Except.error (3:ℕ) : Except ℕ Unit)).2 = Except.error 3 ∧
    (errorHandlingCall RespondVia.callbackQuery
        (Except.error (3:ℕ) : Except ℕ Unit)).1 = [genericErrorAlert] := by
  exact ⟨(handler_error_amended RespondVia.callbackQuery).1 3,
    (handler_error_amended RespondVia.callbackQuery).2.2.1 3 rfl⟩

/-! ## C2: the gatekeeper evaluation order -/

theorem spamStage_frame (s : PipelineState) (e : Event) :
    (spamStage s e).1.rate = s.rate ∧ (spamStage s e).1.cooldown = s.cooldown := by
  unfold spamStage
  rcases ht : e.text with _ | t <;> rcases hu : e.userId with _ | u <;> simp

theorem spamStage_some_eq (s : PipelineState) (e : Event) (o : ChainOutcome)
    (h : (spamStage s e).2 = some o) : o = .deniedAtSpam := by
  unfold spamStage at h
  rcases ht : e.text with _ | t <;> rcases hu : e.userId with _ | u <;>
    rw [ht, hu] at h <;> simp at h
  exact h.2.symm

theorem rateStage_frame (rateLimit : ℕ) (s : PipelineState) (e : Event) :
    (rateStage rateLimit s e).1.spam = s.spam ∧
    (rateStage rateLimit s e).1.cooldown = s.cooldown := by
  unfold rateStage
  rcases hu : e.userId with _ | u <;> simp

theorem rateStage_some_eq (rateLimit : ℕ) (s : PipelineState) (e : Event) (o : ChainOutcome)
    (h : (rateStage rateLimit s e).2 = some o) : ∃ t, o = .deniedAtRate t := by
  unfold rateStage at h
  rcases hu : e.userId with _ | u <;> rw [hu] at h <;> simp at h
  rcases hr : (throttlingCall rateLimit s.rate u e.time).2 with _ | tier <;>
    rw [hr] at h <;> simp at h
  exact ⟨tier, h.symm⟩

theorem cooldownStage_frame (s : PipelineState) (e : Event) :
    (cooldownStage s e).1.spam = s.spam ∧ (cooldownStage s e).1.rate = s.rate := by
  unfold cooldownStage
  rcases ht : e.text with _ | t <;> rcases hu : e.userId with _ | u <;> simp

theorem cooldownStage_some_eq (s : PipelineState) (e : Event) (o : ChainOutcome)
    (h : (cooldownStage s e).2 = some o) : ∃ r, o = .deniedAtCooldown r := by
  unfold cooldownStage at h
  rcases ht : e.text with _ | t <;> rcases hu : e.userId with _ | u <;>
    rw [ht, hu] at h <;> simp at h
  rcases hr : (commandThrottlingCall s.cooldown u t e.time).2 with _ | r | _ <;>
    rw [hr] at h <;> simp at h
  exact ⟨r, h.symm⟩

/-- C2 counterexample.  The claim says the chain evaluates `RateCheck`, then
`CooldownCheck`, then `SpamCheck` (the order `chainSpecOrder` implements).
`_setup_middleware` registers `AntiSpamMiddleware` *before*
`ThrottlingMiddleware` and `CommandThrottlingMiddleware`, so on a command
event whose text already spams the history, the real chain denies at the
spam check with the rate window untouched, while the claimed order would
have recorded a rate timestamp first: the two disagree on the resulting
state. -/
theorem gatekeeper_order_cex :
    ¬ (∀ (rateLimit : ℕ) (s : PipelineState) (e : Event),
        chainCall rateLimit s e = chainSpecOrder rateLimit s e) := by
  intro h
  have h2 := congrArg (fun p => p.1.rate.timestamps 1)
    (h 30
      ⟨⟨updFn (fun _ => []) 1
          [("/start".toList, 99), ("/start".toList, 99),
           ("/start".toList, 99), ("/start".toList, 99)]⟩,
        throttleInit, cooldownInit⟩
      ⟨some 1, some "/start".toList, 100⟩)
  exact absurd h2 (by decide)

/-- C2 amended.  The chain evaluates the stages in registration order —
`SpamCheck` (AntiSpamMiddleware), then `RateCheck` (ThrottlingMiddleware),
then `CooldownCheck` (CommandThrottlingMiddleware) — and the first stage to
deny terminates processing: a spam denial leaves the rate and cooldown state
untouched, a rate denial leaves the cooldown state untouched and the spam
state exactly as the spam stage left it, and a cooldown denial leaves the
spam and rate state exactly as those earlier stages left them. -/
theorem gatekeeper_order_amended (rateLimit : ℕ) (s : PipelineState) (e : Event) :
    ((chainCall rateLimit s e).2 = .deniedAtSpam →
      (chainCall rateLimit s e).1.rate = s.rate ∧
      (chainCall rateLimit s e).1.cooldown = s.cooldown) ∧
    (∀ tier, (chainCall rateLimit s e).2 = .deniedAtRate tier →
      (chainCall rateLimit s e).1.spam = (spamStage s e).1.spam ∧
      (chainCall rateLimit s e).1.cooldown = s.cooldown) ∧
    (∀ rem, (chainCall rateLimit s e).2 = .deniedAtCooldown rem →
      (chainCall rateLimit s e).1.spam = (spamStage s e).1.spam ∧
      (chainCall rateLimit s e).1.rate =
        (rateStage rateLimit (spamStage s e).1 e).1.rate) := by
  rcases h1 : (spamStage s e).2 with _ | o1
  · rcases h2 : (rateStage rateLimit (spamStage s e).1 e).2 with _ | o2
    · rcases h3 : (cooldownStage (rateStage rateLimit (spamStage s e).1 e).1 e).2 with _ | o3
      · simp [chainCall, h1, h2, h3]
      · obtain ⟨r, hr⟩ := cooldownStage_some_eq _ _ _ h3
        subst hr
        simp [chainCall, h1, h2, h3,
          (cooldownStage_frame (rateStage rateLimit (spamStage s e).1 e).1 e).1,
          (cooldownStage_frame (rateStage rateLimit (spamStage s e).1 e).1 e).2,
          (rateStage_frame rateLimit (spamStage s e).1 e).1]
    · obtain ⟨t, ht⟩ := rateStage_some_eq _ _ _ _ h2
      subst ht
      simp [chainCall, h1, h2,
        (rateStage_frame rateLimit (spamStage s e).1 e).1,
        (rateStage_frame rateLimit (spamStage s e).1 e).2,
        (spamStage_frame s e).2]
  · have ho := spamStage_some_eq s e o1 h1
    subst ho
    simp [chainCall, h1, (spamStage_frame s e).1, (spamStage_frame s e).2]

theorem gatekeeper_order_amended_witness :
    ((chainCall 30
        ⟨⟨updFn (fun _ => []) 1
            [("hi".toList, 99), ("hi".toList, 99), ("hi".toList, 99), ("hi".toList, 99)]⟩,
          throttleInit, cooldownInit⟩
        ⟨some 1, some "hi".toList, 100⟩).2 = .deniedAtSpam ∧
      (chainCall 30
        ⟨⟨updFn (fun _ => []) 1
            [("hi".toList, 99), ("hi".toList, 99), ("hi".toList, 99), ("hi".toList, 99)]⟩,
          throttleInit, cooldownInit⟩
        ⟨some 1, some "hi".toList, 100⟩).1.rate = throttleInit) ∧
    ((chainCall 1
        ⟨spamInit, ⟨updFn (fun _ => []) 1 [99], fun _ => 0⟩, cooldownInit⟩
        ⟨some 1, some "hi".toList, 100⟩).2 = .deniedAtRate .soft ∧
      (chainCall 1
        ⟨spamInit, ⟨updFn (fun _ => []) 1 [99], fun _ => 0⟩, cooldownInit⟩
        ⟨some 1, some "hi".toList, 100⟩).1.cooldown = cooldownInit) := by
  constructor
  · refine ⟨by decide, ?_⟩
    exact ((gatekeeper_order_amended 30
      ⟨⟨updFn (fun _ => []) 1
          [("hi".toList, 99), ("hi".toList, 99), ("hi".toList, 99), ("hi".toList, 99)]⟩,
        throttleInit, cooldownInit⟩
      ⟨some 1, some "hi".toList, 100⟩).1 (by decide)).1
  · refine ⟨by decide, ?_⟩
    exact ((gatekeeper_order_amended 1
      ⟨spamInit, ⟨updFn (fun _ => []) 1 [99], fun _ => 0⟩, cooldownInit⟩
      ⟨some 1, some "hi".toList, 100⟩).2.1 .soft (by decide)).2

/-! ## C4: repeated identical content -/

/-- C4.  Starting from an empty history, five sends of the identical text
within one 60-second window are allowed four times and denied on the fifth
(4 prior identical entries already sit in the pruned history, and the check
fires before appending); the denied message is never added to the history,
and a further attempt made once 60 seconds have passed since the last stored
occurrence is allowed again. -/
theorem repeatContent_fifth_denied (s : SpamState) (u : ℕ) (m : Text)
    (t1 t2 t3 t4 t5 t6 : ℤ)
    (hempty : s.history u = [])
    (h12 : t1 ≤ t2) (h23 : t2 ≤ t3) (h34 : t3 ≤ t4) (h45 : t4 ≤ t5)
    (hwin : t5 < t1 + 60)
    (h6 : t4 + 60 ≤ t6) :
    (spamRun s u [(m, t1), (m, t2), (m, t3), (m, t4), (m, t5)]).2 =
      [false, false, false, false, true] ∧
    (spamRun s u [(m, t1), (m, t2), (m, t3), (m, t4), (m, t5)]).1.history u =
      [(trimText (lowerText m), t1), (trimText (lowerText m), t2),
       (trimText (lowerText m), t3), (trimText (lowerText m), t4)] ∧
    (antiSpamCall (spamRun s u [(m, t1), (m, t2), (m, t3), (m, t4), (m, t5)]).1
        u m t6).2 = false := by
  have f21 : t2 - 60 < t1 := by omega
  have f31 : t3 - 60 < t1 := by omega
  have f32 : t3 - 60 < t2 := by omega
  have f41 : t4 - 60 < t1 := by omega
  have f42 : t4 - 60 < t2 := by omega
  have f43 : t4 - 60 < t3 := by omega
  have f51 : t5 - 60 < t1 := by omega
  have f52 : t5 - 60 < t2 := by omega
  have f53 : t5 - 60 < t3 := by omega
  have f54 : t5 - 60 < t4 := by omega
  have g1 : ¬ (t6 - 60 < t1) := by omega
  have g2 : ¬ (t6 - 60 < t2) := by omega
  have g3 : ¬ (t6 - 60 < t3) := by omega
  have g4 : ¬ (t6 - 60 < t4) := by omega
  have e1 : antiSpamCall s u m t1 =
      (⟨updFn s.history u [(trimText (lowerText m), t1)]⟩, false) := by
    simp [antiSpamCall, hempty, spamThreshold]
  have e2 : antiSpamCall ⟨updFn s.history u [(trimText (lowerText m), t1)]⟩ u m t2 =
      (⟨updFn s.history u
        [(trimText (lowerText m), t1), (trimText (lowerText m), t2)]⟩, false) := by
    simp [antiSpamCall, spamThreshold, f21]
  have e3 : antiSpamCall
      ⟨updFn s.history u [(trimText (lowerText m), t1), (trimText (lowerText m), t2)]⟩
      u m t3 =
      (⟨updFn s.history u
        [(trimText (lowerText m), t1), (trimText (lowerText m), t2),
         (trimText (lowerText m), t3)]⟩, false) := by
    simp [antiSpamCall, spamThreshold, f31, f32]
  have e4 : antiSpamCall
      ⟨updFn s.history u
        [(trimText (lowerText m), t1), (trimText (lowerText m), t2),
         (trimText (lowerText m), t3)]⟩ u m t4 =
      (⟨updFn s.history u
        [(trimText (lowerText m), t1), (trimText (lowerText m), t2),
         (trimText (lowerText m), t3), (trimText (lowerText m), t4)]⟩, false) := by
    simp [antiSpamCall, spamThreshold, f41, f42, f43]
  have e5 : antiSpamCall
      ⟨updFn s.history u
        [(trimText (lowerText m), t1), (trimText (lowerText m), t2),
         (trimText (lowerText m), t3), (trimText (lowerText m), t4)]⟩ u m t5 =
      (⟨updFn s.history u
        [(trimText (lowerText m), t1), (trimText (lowerText m), t2),
         (trimText (lowerText m), t3), (trimText (lowerText m), t4)]⟩, true) := by
    simp [antiSpamCall, spamThreshold, f51, f52, f53, f54]
  have e6 : (antiSpamCall
      ⟨updFn s.history u
        [(trimText (lowerText m), t1), (trimText (lowerText m), t2),
         (trimText (lowerText m), t3), (trimText (lowerText m), t4)]⟩ u m t6).2 =
      false := by
    simp [antiSpamCall, spamThreshold, g1, g2, g3, g4]
  refine ⟨?_, ?_, ?_⟩ <;>
    simp [spamRun, e1, e2, e3, e4, e5, e6]

theorem repeatContent_fifth_denied_witness :
    (spamInit.history 1 = [] ∧ (0:ℤ) ≤ 1 ∧ (1:ℤ) ≤ 2 ∧ (2:ℤ) ≤ 3 ∧ (3:ℤ) ≤ 4 ∧
      (4:ℤ) < 0 + 60 ∧ (3:ℤ) + 60 ≤ 63) ∧
    (spamRun spamInit 1
      [("  SPAM  ".toList, 0), ("  SPAM  ".toList, 1), ("  SPAM  ".toList, 2),
       ("  SPAM  ".toList, 3), ("  SPAM  ".toList, 4)]).2 =
      [false, false, false, false, true] ∧
    (antiSpamCall (spamRun spamInit 1
      [("  SPAM  ".toList, 0), ("  SPAM  ".toList, 1), ("  SPAM  ".toList, 2),
       ("  SPAM  ".toList, 3), ("  SPAM  ".toList, 4)]).1 1 "  SPAM  ".toList 63).2 =
      false := by
  have h := repeatContent_fifth_denied spamInit 1 "  SPAM  ".toList 0 1 2 3 4 63
    rfl (by decide) (by decide) (by decide) (by decide) (by decide) (by decide)
  exact ⟨⟨rfl, by decide, by decide, by decide, by decide, by decide, by decide⟩,
    h.1, h.2.2⟩

/-! ## C1: at most `ceiling` admissions per user in any 60-second window -/

/-- One limiter call acts on the calling user's slot exactly as
`singleStep` does. -/
theorem throttlingCall_eq_singleStep (rateLimit : ℕ) (s : ThrottleState) (u : ℕ) (t : ℤ) :
    (throttlingCall rateLimit s u t).1.timestamps u =
      (singleStep rateLimit (s.timestamps u, s.warnings u) t).1.1 ∧
    (throttlingCall rateLimit s u t).1.warnings u =
      (singleStep rateLimit (s.timestamps u, s.warnings u) t).1.2 ∧
    (throttlingCall rateLimit s u t).2.isAllowed =
      (singleStep rateLimit (s.timestamps u, s.warnings u) t).2 := by
  by_cases h : rateLimit ≤ ((s.timestamps u).filter (fun ts => decide (t - 60 < ts))).length
  · simp [throttlingCall, singleStep, cleanOldTimestamps, handleRateLimit, h,
      RateResult.isAllowed]
  · by_cases h2 : 2 * (((s.timestamps u).filter (fun ts => decide (t - 60 < ts))).length + 1)
        < rateLimit <;>
      simp [throttlingCall, singleStep, cleanOldTimestamps, handleRateLimit, h, h2,
        RateResult.isAllowed]

/-- A limiter call never touches another user's slot. -/
theorem throttle_frame (rateLimit : ℕ) (s : ThrottleState) (u : ℕ) (t : ℤ) (v : ℕ)
    (hv : v ≠ u) :
    (throttlingCall rateLimit s u t).1.timestamps v = s.timestamps v ∧
    (throttlingCall rateLimit s u t).1.warnings v = s.warnings v := by
  by_cases h : rateLimit ≤ ((s.timestamps u).filter (fun ts => decide (t - 60 < ts))).length
  · simp [throttlingCall, cleanOldTimestamps, handleRateLimit, h, hv]
  · by_cases h2 : 2 * (((s.timestamps u).filter (fun ts => decide (t - 60 < ts))).length + 1)
        < rateLimit <;>
      simp [throttlingCall, cleanOldTimestamps, handleRateLimit, h, h2, hv]

theorem userEvents_cons_pos (U : ℕ) (x : ℕ × ℤ) (l : List (ℕ × ℤ)) (h : x.1 = U) :
    userEvents U (x :: l) = x.2 :: userEvents U l := by
  simp [userEvents, List.filter_cons, h]

theorem userEvents_cons_neg (U : ℕ) (x : ℕ × ℤ) (l : List (ℕ × ℤ)) (h : ¬ x.1 = U) :
    userEvents U (x :: l) = userEvents U l := by
  simp [userEvents, List.filter_cons, h]

theorem userDecisions_cons_pos (U : ℕ) (x : ℕ × ℤ × RateResult)
    (l : List (ℕ × ℤ × RateResult)) (h : x.1 = U) :
    userDecisions U (x :: l) = (x.2.1, x.2.2.isAllowed) :: userDecisions U l := by
  simp [userDecisions, List.filter_cons, h]

theorem userDecisions_cons_neg (U : ℕ) (x : ℕ × ℤ × RateResult)
    (l : List (ℕ × ℤ × RateResult)) (h : ¬ x.1 = U) :
    userDecisions U (x :: l) = userDecisions U l := by
  simp [userDecisions, List.filter_cons, h]

/-- A full multi-user run, projected to one user, is the single-user run on
that user's slot and event times. -/
theorem run_proj (rateLimit : ℕ) (U : ℕ) :
    ∀ (events : List (ℕ × ℤ)) (s : ThrottleState),
      userDecisions U (throttleRun rateLimit s events) =
        singleRun rateLimit (s.timestamps U, s.warnings U) (userEvents U events) := by
  intro events
  induction events with
  | nil => intro s; rfl
  | cons ev rest ih =>
    intro s
    obtain ⟨u, t⟩ := ev
    by_cases hu : u = U
    · subst hu
      have hstep := throttlingCall_eq_singleStep rateLimit s u t
      have hpair : ((throttlingCall rateLimit s u t).1.timestamps u,
          (throttlingCall rateLimit s u t).1.warnings u) =
          (singleStep rateLimit (s.timestamps u, s.warnings u) t).1 :=
        Prod.ext hstep.1 hstep.2.1
      simp only [throttleRun]
      rw [userDecisions_cons_pos u _ _ rfl, userEvents_cons_pos u _ _ rfl]
      simp only [singleRun]
      rw [ih ((throttlingCall rateLimit s u t).1), hpair, hstep.2.2]
    · have hframe := throttle_frame rateLimit s u t U (fun h => hu h.symm)
      simp only [throttleRun]
      rw [userDecisions_cons_neg U _ _ hu, userEvents_cons_neg U _ _ hu]
      rw [ih ((throttlingCall rateLimit s u t).1), hframe.1, hframe.2]

theorem countIn_zero (rateLimit : ℕ) (a : ℤ) :
    ∀ (ts : List ℤ) (st : List ℤ × ℕ), (∀ t ∈ ts, a + 60 ≤ t) →
      (singleRun rateLimit st ts).countP (inWindow a) = 0 := by
  intro ts
  induction ts with
  | nil => intro st _; rfl
  | cons t rest ih =>
    intro st h
    have ht : a + 60 ≤ t := h t (List.mem_cons_self t rest)
    have hw : inWindow a (t, (singleStep rateLimit st t).2) = false := by
      simp [inWindow, show ¬ (t < a + 60) by omega]
    simp only [singleRun, List.countP_cons, hw, if_false, Nat.add_zero]
    exact ih _ (fun x hx => h x (List.mem_cons_of_mem _ hx))

/-- Pruning at a time still inside the window `[a, a + 60)` removes no stored
instant `≥ a`: the cut-off `t - 60` lies strictly below `a`. -/
theorem stored_pruned (a t : ℤ) (l : List ℤ) (h : t < a + 60) :
    (l.filter (fun x => decide (t - 60 < x))).countP (fun x => decide (a ≤ x)) =
      l.countP (fun x => decide (a ≤ x)) := by
  rw [List.countP_filter]
  apply List.countP_congr
  intro x _
  constructor
  · intro hx
    simp at hx
    simp [hx.1]
  · intro hx
    simp at hx
    simp [hx]
    omega

theorem singleRun_cons (rateLimit : ℕ) (st : List ℤ × ℕ) (t : ℤ) (rest : List ℤ) :
    singleRun rateLimit st (t :: rest) =
      (t, (singleStep rateLimit st t).2) ::
        singleRun rateLimit (singleStep rateLimit st t).1 rest := rfl

theorem countIn_le (rateLimit : ℕ) (a : ℤ) :
    ∀ (ts : List ℤ) (st : List ℤ × ℕ), ts.Pairwise (· ≤ ·) →
      (singleRun rateLimit st ts).countP (inWindow a) ≤
        rateLimit - st.1.countP (fun x => decide (a ≤ x)) := by
  intro ts
  induction ts with
  | nil => intro st _; simp [singleRun]
  | cons t rest ih =>
    intro st hp
    rw [List.pairwise_cons] at hp
    obtain ⟨hall, hrest⟩ := hp
    by_cases hge : a + 60 ≤ t
    · have hw : inWindow a (t, (singleStep rateLimit st t).2) = false := by
        simp [inWindow, show ¬ (t < a + 60) by omega]
      rw [singleRun_cons, List.countP_cons, hw]
      simp only [Bool.false_eq_true, if_false, Nat.add_zero]
      rw [countIn_zero rateLimit a rest (singleStep rateLimit st t).1
        (fun x hx => le_trans hge (hall x hx))]
      exact Nat.zero_le _
    · have hlt : t < a + 60 := by omega
      have hsp := stored_pruned a t st.1 hlt
      by_cases hd : rateLimit ≤ (st.1.filter (fun x => decide (t - 60 < x))).length
      · have hstep : singleStep rateLimit st t =
            ((st.1.filter (fun x => decide (t - 60 < x)), st.2 + 1), false) := by
          simp [singleStep, hd]
        have hw : inWindow a (t, (singleStep rateLimit st t).2) = false := by
          rw [hstep]; simp [inWindow]
        rw [singleRun_cons, List.countP_cons, hw]
        simp only [Bool.false_eq_true, if_false, Nat.add_zero]
        have hb : (singleRun rateLimit (singleStep rateLimit st t).1 rest).countP
            (inWindow a) ≤ rateLimit -
              (st.1.filter (fun x => decide (t - 60 < x))).countP
                (fun x => decide (a ≤ x)) := by
          have h0 := ih (singleStep rateLimit st t).1 hrest
          rwa [show (singleStep rateLimit st t).1.1 =
            st.1.filter (fun x => decide (t - 60 < x)) by rw [hstep]] at h0
        rw [hsp] at hb
        exact hb
      · have hlen : (st.1.filter (fun x => decide (t - 60 < x))).length < rateLimit :=
          Nat.lt_of_not_le hd
        have hstep1 : (singleStep rateLimit st t).1.1 =
            st.1.filter (fun x => decide (t - 60 < x)) ++ [t] := by
          simp only [singleStep, hd, if_false]
          split <;> rfl
        have hstep2 : (singleStep rateLimit st t).2 = true := by
          simp only [singleStep, hd, if_false]
        have hw : inWindow a (t, (singleStep rateLimit st t).2) = decide (a ≤ t) := by
          rw [hstep2]; simp [inWindow, hlt]
        have hb := ih (singleStep rateLimit st t).1 hrest
        rw [hstep1, List.countP_append] at hb
        have hcnt : (st.1.filter (fun x => decide (t - 60 < x))).countP
            (fun x => decide (a ≤ x)) ≤
            (st.1.filter (fun x => decide (t - 60 < x))).length :=
          List.countP_le_length _
        rw [hsp] at hb hcnt
        rw [singleRun_cons, List.countP_cons, hw]
        by_cases ha : a ≤ t
        · have h1 : List.countP (fun x => decide (a ≤ x)) [t] = 1 := by
            simp [List.countP_cons, ha]
          have h2 : (if decide (a ≤ t) = true then 1 else 0) = 1 := by simp [ha]
          rw [h1] at hb
          rw [h2]
          omega
        · have h1 : List.countP (fun x => decide (a ≤ x)) [t] = 0 := by
            simp [List.countP_cons, ha]
          have h2 : (if decide (a ≤ t) = true then 1 else 0) = 0 := by simp [ha]
          rw [h1] at hb
          rw [h2]
          omega

/-- C1.  Over any event sequence processed from the initial (empty) state
with non-decreasing event times, and for every user `U` and window start
`a`, the number of events of `U` admitted by the sliding-window limiter with
admission time inside the 60-second window `[a, a + 60)` is at most the
configured ceiling. -/
theorem slidingWindow_allowed_ceiling (rateLimit : ℕ) (events : List (ℕ × ℤ))
    (hmono : events.Pairwise (fun x y => x.2 ≤ y.2)) (U : ℕ) (a : ℤ) :
    (throttleRun rateLimit throttleInit events).countP
      (fun x => decide (x.1 = U) && inWindow a (x.2.1, x.2.2.isAllowed)) ≤ rateLimit := by
  have h1 : (throttleRun rateLimit throttleInit events).countP
      (fun x => decide (x.1 = U) && inWindow a (x.2.1, x.2.2.isAllowed)) =
      (userDecisions U (throttleRun rateLimit throttleInit events)).countP (inWindow a) := by
    rw [userDecisions, List.countP_map, List.countP_filter]
    apply List.countP_congr
    intro x _
    simp [Bool.and_comm]
  rw [h1, run_proj]
  have hsorted : (userEvents U events).Pairwise (· ≤ ·) := by
    rw [userEvents, List.pairwise_map]
    exact (hmono.filter _)
  have hb := countIn_le rateLimit a (userEvents U events)
    (throttleInit.timestamps U, throttleInit.warnings U) hsorted
  simpa [throttleInit] using hb

theorem slidingWindow_allowed_ceiling_witness :
    ([((1:ℕ), (0:ℤ)), (1, 1), (1, 2), (1, 3)].Pairwise (fun x y => x.2 ≤ y.2)) ∧
    (throttleRun 2 throttleInit [(1, 0), (1, 1), (1, 2), (1, 3)]).countP
      (fun x => decide (x.1 = 1) && inWindow 0 (x.2.1, x.2.2.isAllowed)) ≤ 2 := by
  exact ⟨by decide, slidingWindow_allowed_ceiling 2 [(1, 0), (1, 1), (1, 2), (1, 3)]
    (by decide) 1 0⟩

end AiogramGeneric
